import Mathlib

/-!
Verification of the InfoTrend aggregator core.

This file gives a shallow embedding, in Lean 4, of the parts of the
InfoTrend repository that the verified properties talk about:

* the freshness policy (`src/services/freshnessService.ts`),
* the source registry (`src/sources/SourceRegistry.ts`),
* the data fetcher / aggregator (`src/services/aiService.ts`),
* the shared adapter helpers (`BaseSource.parseTimestamp`, `cleanString`),
* the generic RSS adapter and the HackerNews adapter,
* the XML helper `ensureArray` (`src/utils/xmlParser.ts`),
* the storage import/export surface (`storage.ts`).

JavaScript numbers that hold epoch timestamps, scores and counts are
modelled as `Int`/`Nat`.  JavaScript `Date` values are modelled by their
epoch-milliseconds time value; `Date.prototype.toISOString` is modelled
by an executable Gregorian-calendar formatter (`isoOfMillis`).  The
engine-dependent string parser `Date.parse` is kept abstract as a
function parameter `dateParse : String → Option Int` (`none` models
`NaN`).  Fallible JavaScript code is modelled with `Option`/`Except`,
and the truthiness tests the source performs (`!value`, `x || y`,
`x ?? y`) are modelled explicitly.
-/

namespace InfoTrend

/-! ### Freshness policy — `src/services/freshnessService.ts`

`getRefreshStrategy` is a pure decision function; the ambient clock
`Date.now()` and the local calendar date string produced by
`getTodayDateString()` are passed explicitly as `now` and `today`.
-/

/-- The three refresh strategies of `RefreshStrategy` in
`freshnessService.ts`. -/
inductive RefreshStrategy where
  | immediate
  | silent
  | force
deriving DecidableEq, Repr

/-- Model of `REFRESH_CONFIG.SILENT_THRESHOLD_MS`: 30 minutes. -/
def SILENT_THRESHOLD_MS : Int := 30 * 60 * 1000

/-- Model of `REFRESH_CONFIG.FORCE_THRESHOLD_MS`: 6 hours. -/
def FORCE_THRESHOLD_MS : Int := 6 * 60 * 60 * 1000

/-- Model of `DataMetadata` from `freshnessService.ts`.  The interface declares
`lastUpdateTime: number`, but the value is read back from JSON storage,
so a missing field is representable; `none` models a missing
`lastUpdateTime`. -/
structure DataMetadata where
  lastUpdateTime : Option Int
  lastUpdateDate : String
deriving DecidableEq, Repr

/-- Truthiness of `metadata.lastUpdateTime` as tested by
`!metadata.lastUpdateTime`: a missing value and the number `0` are
falsy. -/
def falsyTime : Option Int → Bool
  | none => true
  | some t => t == 0

/-- Model of `isSameDay` from `freshnessService.ts`: plain string equality. -/
def isSameDay (d1 d2 : String) : Bool := d1 == d2

/-- Model of `isNewDay` from `freshnessService.ts`, with today's date string
passed explicitly. -/
def isNewDay (today lastUpdateDate : String) : Bool :=
  !(isSameDay lastUpdateDate today)

/-- Model of `calculateDataAge` from `freshnessService.ts`: `Date.now() -
lastUpdateTime`, with `Date.now()` passed explicitly. -/
def calculateDataAge (now t : Int) : Int := now - t

/-- Model of `getRefreshStrategy` from `freshnessService.ts`, lines 72–99. -/
def getRefreshStrategy (now : Int) (today : String)
    (metadata : Option DataMetadata) : RefreshStrategy :=
  match metadata with
  | none => .force
  | some md =>
    if falsyTime md.lastUpdateTime then .force
    else
      let t := md.lastUpdateTime.getD 0
      let age := calculateDataAge now t
      if isNewDay today md.lastUpdateDate then .force
      else if age > FORCE_THRESHOLD_MS then .force
      else if age > SILENT_THRESHOLD_MS then .silent
      else .immediate

/-! ### Source registry — `src/sources/SourceRegistry.ts`

An adapter is modelled by the behaviour of its `fetch` under the call's
options: either it resolves with a list of items (`Except.ok`) or it
throws (`Except.error`, carrying the message).  The registry is an
association list keyed by source name (registration refuses
duplicates, so keys are unique; lookup takes the first match).
-/

/-- Minimal feed item carrying the fields the registry- and
aggregator-level claims inspect.  `publishedAt` is optional and is
either an ISO string or a `Date` (epoch ms), matching
`FeedItem.publishedAt?: Date | string` in `src/types/index.ts`;
`isPinned` is an optional boolean. -/
inductive PublishedAt where
  | str (s : String)
  | date (ms : Int)
deriving DecidableEq, Repr

structure FeedItem where
  id : String
  title : String
  source : String
  sourceName : Option String := none
  url : String
  summary : Option String := none
  publishedAt : Option PublishedAt := none
  tags : Option (List String) := none
  aiSummary : Option String := none
  score : Option Int := none
  upvotes : Option Int := none
  commentCount : Option Int := none
  author : Option String := none
  isPinned : Option Bool := none
deriving DecidableEq, Repr

/-- Behaviour of one adapter's `fetch` for the options of the current
call: the resolved item list, or the thrown error's message. -/
def AdapterRun : Type := Except String (List FeedItem)

/-- The registry's `sources` map, as an association list with distinct
keys. -/
def Registry : Type := List (String × AdapterRun)

/-- Model of `SourceRegistry.get`: look the adapter up by name. -/
def registryGet (reg : Registry) (name : String) : Option AdapterRun :=
  (reg.find? (fun p => p.1 == name)).map (fun p => p.2)

/-- Model of `SourceRegistry.fetchFrom`, lines 68–80: a missing adapter is
logged and yields `[]`; a throwing adapter is caught, logged and
yields `[]`; otherwise the adapter's items are returned. -/
def fetchFrom (reg : Registry) (name : String) : List FeedItem :=
  match registryGet reg name with
  | none => []
  | some (.error _) => []
  | some (.ok items) => items

/-- Model of `SourceRegistry.fetchFromMany`, lines 88–104: `Promise.allSettled`
over `fetchFrom` keeps the order in which the names were given, and
every promise is fulfilled because `fetchFrom` never throws; the
`forEach` then pushes each fulfilled value onto `allItems`. -/
def fetchFromMany (reg : Registry) (names : List String) : List FeedItem :=
  let results := names.map (fun name => fetchFrom reg name)
  results.foldl (fun allItems r => allItems ++ r) []

/-- Concrete registry for the A/B scenario of C3: adapter "A" resolves
with two items, adapter "B" throws. -/
def itemA1 : FeedItem :=
  { id := "a-1", title := "first", source := "A", url := "https://a.example/1" }

def itemA2 : FeedItem :=
  { id := "a-2", title := "second", source := "A", url := "https://a.example/2" }

def exampleRegistry : Registry :=
  [("A", .ok [itemA1, itemA2]), ("B", .error "boom")]

/-! ### `ensureArray` — `src/utils/xmlParser.ts`, lines 185–188

The TypeScript signature is `ensureArray<T>(value: T | T[] |
undefined): T[]`.  The JavaScript truthiness test `!value` depends on
the element value, so the embedding carries the element type's
falsiness predicate (`0`, `NaN`, the empty string, `false` and `null`
are the falsy scalars). -/

/-- A value of type `T | T[] | undefined` as received by
`ensureArray`. -/
inductive XmlValue (α : Type) where
  | undef
  | arr (xs : List α)
  | scalar (x : α)
deriving DecidableEq, Repr

/-- Model of `ensureArray` from `xmlParser.ts`: `if (!value) return []; return
Array.isArray(value) ? value : [value];`.  Arrays (even empty ones)
are always truthy in JavaScript, so they are returned unchanged. -/
def ensureArray {α : Type} (isFalsy : α → Bool) : XmlValue α → List α
  | .undef => []
  | .arr xs => xs
  | .scalar x => if isFalsy x then [] else [x]

/-! ### Data fetcher / aggregator — `src/services/aiService.ts`

`fetchDataByType` (lines 751–787) does per-source caching around a
registry fetch.  Its inputs here: the module-level `forceRefresh`
flag, the clock, whether the registry has the source
(`SourceRegistry.has`), the behaviour of the adapter for this call
(`AdapterRun`), and the stored cache entry for the source's key.  The
result is the contributed item list together with the cache entry
stored for the source's key after the call.  The final `catch` of the
source returns `cachedData?.items || []`, but `SourceRegistry.fetchFrom`
never rejects and `saveCache` (backed by `safeStorageSet`) always
resolves, so inside this model that handler is unreachable. -/

/-- Model of `CACHE_DURATION` from `aiService.ts`: 30 minutes. -/
def CACHE_DURATION : Int := 30 * 60 * 1000

/-- A stored cache entry `{ items, timestamp }`. -/
structure CacheEntry where
  items : List FeedItem
  timestamp : Int
deriving DecidableEq, Repr

/-- The test `cachedData && Date.now() - cachedData.timestamp <
CACHE_DURATION`. -/
def cacheValid (now : Int) : Option CacheEntry → Bool
  | some c => now - c.timestamp < CACHE_DURATION
  | none => false

/-- Model of `fetchDataByType` from `aiService.ts`, lines 751–787. -/
def fetchDataByType (forceRefresh : Bool) (now : Int) (registryHas : Bool)
    (adapterRun : AdapterRun) (cached : Option CacheEntry) :
    List FeedItem × Option CacheEntry :=
  if !forceRefresh && cacheValid now cached then
    ((cached.map (fun c => c.items)).getD [], cached)
  else if !registryHas then
    ((cached.map (fun c => c.items)).getD [], cached)
  else
    let items := match adapterRun with
      | .ok l => l
      | .error _ => []
    (items, some ⟨items, now⟩)

/-- The slice of `SourceConfig` (`src/types/index.ts`) that
`fetchAllData` reads: the `enabled` filter and the optional `isPinned`
flag (`isPinned?: boolean`, so `none` models an absent flag). -/
structure SourceConfig where
  id : String
  enabled : Bool
  isPinned : Option Bool := none
deriving DecidableEq, Repr

/-- The merge step `{...item, isPinned: source.isPinned}` of
`fetchAllData`. -/
def stampPinned (p : Option Bool) (it : FeedItem) : FeedItem :=
  { it with isPinned := p }

/-- The `results.forEach` loop of `fetchAllData`, lines 719–731: each
fulfilled source contributes its items stamped with the source's
`isPinned`; a rejected source is logged and contributes nothing
(`fetchResult s = none` models a rejected promise). -/
def collectResults (enabledSources : List SourceConfig)
    (fetchResult : SourceConfig → Option (List FeedItem)) : List FeedItem :=
  enabledSources.foldl
    (fun allItems s =>
      match fetchResult s with
      | some items => allItems ++ items.map (stampPinned s.isPinned)
      | none => allItems)
    []

/-- The date rendering inside the sort comparator of `fetchAllData`,
lines 741–743: `new Date(x.publishedAt || 0)` then `(date?.getTime()
|| 0)`.  A missing `publishedAt`, an empty string, and an unparseable
string (whose `getTime()` is `NaN`) all order as epoch zero. -/
def jsDateOf (dp : String → Option Int) (it : FeedItem) : Int :=
  match it.publishedAt with
  | none => 0
  | some (.date ms) => ms
  | some (.str s) =>
    if s == "" then 0
    else
      match dp s with
      | some t => t
      | none => 0

/-- The sort comparator of `fetchAllData`, lines 734–744: pinned
status first (`a.isPinned !== b.isPinned`, then truthiness of
`a.isPinned`), then `publishedAt` descending. -/
def sortCmp (dp : String → Option Int) (a b : FeedItem) : Int :=
  if a.isPinned ≠ b.isPinned then (if a.isPinned == some true then -1 else 1)
  else jsDateOf dp b - jsDateOf dp a

/-- Boolean order induced by the comparator: `a` may precede `b` when
`sortCmp a b ≤ 0`. -/
def sortLe (dp : String → Option Int) (a b : FeedItem) : Bool :=
  sortCmp dp a b ≤ 0

/-- A sort implementation, standing for the engine's
`Array.prototype.sort`. -/
def SortImpl : Type :=
  (FeedItem → FeedItem → Bool) → List FeedItem → List FeedItem

/-- ECMAScript's notion of a consistent comparison function,
specialised to the elements actually being sorted: on them, the
induced `≤` is total and transitive. -/
def Consistent (le : FeedItem → FeedItem → Bool) (l : List FeedItem) : Prop :=
  (∀ a ∈ l, ∀ b ∈ l, le a b = true ∨ le b a = true)
  ∧ (∀ a ∈ l, ∀ b ∈ l, ∀ c ∈ l,
      le a b = true → le b c = true → le a c = true)

/-- What ECMAScript guarantees of `Array.prototype.sort`: the result
is a permutation of the input, and it is sorted by the comparator
whenever the comparator is consistent on the elements.  For an
inconsistent comparator the order is implementation-defined. -/
def IsJsSort (impl : SortImpl) : Prop :=
  ∀ (le : FeedItem → FeedItem → Bool) (l : List FeedItem),
    (impl le l).Perm l
    ∧ (Consistent le l → (impl le l).Pairwise (fun a b => le a b = true))

/-- Insertion of one element into a sorted prefix — one conforming
sort algorithm. -/
def orderedInsertB {α : Type} (le : α → α → Bool) (a : α) : List α → List α
  | [] => [a]
  | b :: l => if le a b then a :: b :: l else b :: orderedInsertB le a l

/-- Insertion sort, the conforming `Array.prototype.sort` model used
to witness the positive statements. -/
def insertionSortB {α : Type} (le : α → α → Bool) : List α → List α
  | [] => []
  | a :: l => orderedInsertB le a (insertionSortB le l)

/-- Model of `fetchAllData` from `aiService.ts`, lines 710–745, with the
engine's sort passed explicitly: filter to enabled sources, fan out
(`fetchResult` gives each settled outcome), stamp and concatenate, and
sort with the pinned-then-recency comparator. -/
def fetchAllData (impl : SortImpl) (dp : String → Option Int)
    (sources : List SourceConfig)
    (fetchResult : SourceConfig → Option (List FeedItem)) : List FeedItem :=
  let enabledSources := sources.filter (fun s => s.enabled)
  let allItems := collectResults enabledSources fetchResult
  impl (sortLe dp) allItems

/-- Pinned status of an item as the claim reads it: the truthiness of
`isPinned`. -/
def pinnedFlag (it : FeedItem) : Bool := it.isPinned == some true

/-- The order the claim asserts of the merged result: no unpinned item
ahead of a pinned one, and `publishedAt` (missing ordering as epoch
zero) descending within equal pinned status. -/
def claimedOrder (dp : String → Option Int) (a b : FeedItem) : Prop :=
  (pinnedFlag b = true → pinnedFlag a = true)
  ∧ (pinnedFlag a = pinnedFlag b → jsDateOf dp b ≤ jsDateOf dp a)

/-- The flag configuration under which the comparator is consistent:
the stamped items never pair an absent `isPinned` with an explicit
`false` one (`undefined !== false` makes the comparator claim
`a > b` and `b > a` simultaneously on such a pair). -/
def NoPinnedMix (items : List FeedItem) : Prop :=
  ¬((∃ x ∈ items, x.isPinned = none) ∧ (∃ y ∈ items, y.isPinned = some false))

/-- Concrete sources for the C4 counterexample: source "a" leaves
`isPinned` unset, source "b" has been explicitly unpinned
(`isPinned: false`, as `Options.tsx` writes when a pin is toggled
off). -/
def cexSrcA : SourceConfig := { id := "a", enabled := true, isPinned := none }

def cexSrcB : SourceConfig :=
  { id := "b", enabled := true, isPinned := some false }

def cexItemNew : FeedItem :=
  { id := "n", title := "newer", source := "X", url := "",
    publishedAt := some (.date 2000) }

def cexItemOld : FeedItem :=
  { id := "o", title := "older", source := "Y", url := "",
    publishedAt := some (.date 1000) }

def cexFetch : SourceConfig → Option (List FeedItem) := fun s =>
  if s.id == "a" then some [cexItemNew] else some [cexItemOld]

def cexStampedNew : FeedItem := stampPinned none cexItemNew

def cexStampedOld : FeedItem := stampPinned (some false) cexItemOld

/-- A conforming sort that, on the counterexample's two items — whose
comparison is inconsistent (`le` fails in both directions) — picks the
implementation-defined order that puts the older unpinned item first;
on every other input it is insertion sort. -/
def badSort : SortImpl := fun le l =>
  if l == [cexStampedNew, cexStampedOld]
      && !(le cexStampedNew cexStampedOld || le cexStampedOld cexStampedNew)
  then [cexStampedOld, cexStampedNew]
  else insertionSortB le l

/-! ### Shared adapter helpers — `BaseSource` (`src/sources/base/BaseSource.ts`)

String helpers are implemented over `List Char` so that they evaluate
inside the kernel; `String.mk`/`String.data` convert at the
boundaries. -/

/-- The white-space test used for `String.prototype.trim` and the
`\s` class (the common subset relevant here). -/
def isJsSpace (c : Char) : Bool := c.isWhitespace

/-- JavaScript `s.trim()`. -/
def jsTrim (s : String) : String :=
  String.mk (((s.data.dropWhile isJsSpace).reverse.dropWhile isJsSpace).reverse)

/-- Parse a non-empty all-digit character list as a natural number. -/
def digitsToNat (cs : List Char) : Option Nat :=
  if cs.isEmpty then none
  else
    cs.foldl
      (fun acc c =>
        match acc with
        | none => none
        | some n => if c.isDigit then some (n * 10 + (c.toNat - 48)) else none)
      (some 0)

/-- The integer fallback of `parseTimestamp`: `const num =
parseInt(timestamp, 10); if (!isNaN(num) && String(num) ===
timestamp.trim())`.  `parseInt` reads an optional sign and a digit
prefix, and the canonicity check `String(num) === timestamp.trim()`
then accepts exactly the strings that round-trip through decimal
rendering, which is what this function parses directly. -/
def jsParseIntCanon (s : String) : Option Int :=
  let t := jsTrim s
  let v : Option Int :=
    match t.data with
    | Char.mk 45 _ :: ds => (digitsToNat ds).map (fun n => -(n : Int))
    | ds => (digitsToNat ds).map (fun n => (n : Int))
  match v with
  | some n => if toString n == t then some n else none
  | none => none

/-- ECMAScript's maximal absolute time value: `8.64e15` ms
(±100,000,000 days around the epoch).  A `Date` built from a number
outside this range is invalid (`getTime()` is `NaN`). -/
def MAX_TIME_VALUE : Int := 8640000000000000

def validTime (t : Int) : Bool :=
  decide (-MAX_TIME_VALUE ≤ t) && decide (t ≤ MAX_TIME_VALUE)

/-- Left-pad a decimal rendering with zeros. -/
def padNum (width n : Nat) : String :=
  let s := toString n
  String.mk (List.replicate (width - s.length) '0') ++ s

/-- Year rendering of `toISOString`: four digits for 0–9999, else an
explicit sign with six digits (expanded-years format). -/
def isoYear (year : Int) : String :=
  if 0 ≤ year && year ≤ 9999 then padNum 4 year.toNat
  else if year < 0 then "-" ++ padNum 6 (-year).toNat
  else "+" ++ padNum 6 year.toNat

/-- Proleptic-Gregorian civil date from a day count since 1970-01-01
(Howard Hinnant's `civil_from_days`): year, month (1–12), day
(1–31). -/
def civilOfDays (days : Int) : Int × Nat × Nat :=
  let z := days + 719468
  let era := z.fdiv 146097
  let doe := (z - era * 146097).toNat
  let yoe := (doe - doe / 1460 + doe / 36524 - doe / 146096) / 365
  let y : Int := (yoe : Int) + era * 400
  let doy := doe - (365 * yoe + yoe / 4 - yoe / 100)
  let mp := (5 * doy + 2) / 153
  let d := doy - (153 * mp + 2) / 5 + 1
  let m := if mp < 10 then mp + 3 else mp - 9
  (if m ≤ 2 then y + 1 else y, m, d)

/-- Model of `Date.prototype.toISOString` on a (valid) time value in epoch
milliseconds: the unique `YYYY-MM-DDTHH:mm:ss.sssZ` rendering of the
instant, UTC. -/
def isoOfMillis (t : Int) : String :=
  let msOfDay := (t.emod 86400000).toNat
  let days := t.fdiv 86400000
  let milli := msOfDay % 1000
  let sec := (msOfDay / 1000) % 60
  let minute := (msOfDay / 60000) % 60
  let hour := msOfDay / 3600000
  let c := civilOfDays days
  isoYear c.1 ++ "-" ++ padNum 2 c.2.1 ++ "-" ++ padNum 2 c.2.2
    ++ "T" ++ padNum 2 hour ++ ":" ++ padNum 2 minute ++ ":" ++ padNum 2 sec
    ++ "." ++ padNum 3 milli ++ "Z"

/-- The `timestamp` argument of `BaseSource.parseTimestamp`: `string |
number | Date | undefined | null`.  A `Date` carries its time value,
`none` standing for an invalid date (`NaN`). -/
inductive TSInput where
  | undef
  | null
  | num (n : Int)
  | str (s : String)
  | date (timeValue : Option Int)

/-- The `unit` argument: seconds or milliseconds. -/
inductive TimeUnit where
  | s
  | ms

/-- Model of `BaseSource.parseTimestamp` (part_005, lines 242–277),
parameterised by the engine's `Date.parse` (`none` models `NaN`).
Numeric input is scaled by the unit; string input goes through
`Date.parse` and then the canonical-integer fallback; a date outside
the representable range is invalid, giving `undefined`. -/
def parseTimestamp (dateParse : String → Option Int) (ts : TSInput)
    (unit : TimeUnit) : Option String :=
  match ts with
  | .undef => none
  | .null => none
  | .date none => none
  | .date (some tv) => if validTime tv then some (isoOfMillis tv) else none
  | .num n =>
    let ms := match unit with
      | .s => n * 1000
      | .ms => n
    if validTime ms then some (isoOfMillis ms) else none
  | .str s =>
    match dateParse s with
    | some t => if validTime t then some (isoOfMillis t) else none
    | none =>
      match jsParseIntCanon s with
      | some n =>
        let ms := match unit with
          | .s => n * 1000
          | .ms => n
        if validTime ms then some (isoOfMillis ms) else none
      | none => none

/-- A concrete `Date.parse` used by witnesses: recognises exactly one
ISO string. -/
def dateParseExample : String → Option Int := fun s =>
  if s == "1970-01-01T00:00:10.000Z" then some 10000 else none

/-- JavaScript string-collapse of `cleanString`: map every white-space
character to a space, then merge adjacent spaces (together this is
`replace(/\s+/g, ' ')`). -/
def collapseRuns : List Char → List Char
  | [] => []
  | [c] => [c]
  | c :: d :: rest =>
    if c == ' ' && d == ' ' then collapseRuns (d :: rest)
    else c :: collapseRuns (d :: rest)

/-- Model of `BaseSource.cleanString` (part_005, lines 299–305): collapse
white-space runs, trim, and truncate with an ellipsis marker when a
(truthy) maximum length is exceeded. -/
def cleanString (str : String) (maxLength : Option Nat) : String :=
  let cleaned := jsTrim (String.mk
    (collapseRuns (str.data.map (fun c => if isJsSpace c then ' ' else c))))
  match maxLength with
  | some m =>
    if m != 0 && decide (m < cleaned.length) then
      String.mk (cleaned.data.take m) ++ "..."
    else cleaned
  | none => cleaned

/-- JavaScript `toLowerCase`, character-wise. -/
def jsToLower (s : String) : String := String.mk (s.data.map Char.toLower)

/-- JavaScript `x || fallback` on an optional string (the empty string
is falsy). -/
def jsOrStr (v : Option String) (fallback : String) : String :=
  match v with
  | some s => if s == "" then fallback else s
  | none => fallback

/-! ### Generic RSS adapter — `RSSSource.fetch` (part_004, lines 160–249) -/

/-- Model of `FetchTimeRange` from `src/types/index.ts`. -/
inductive FetchTimeRange where
  | d1
  | d3
  | d7
  | d30
deriving DecidableEq, Repr

/-- Model of `TIME_RANGE_MS` from `src/types/index.ts`. -/
def TIME_RANGE_MS : FetchTimeRange → Int
  | .d1 => 24 * 60 * 60 * 1000
  | .d3 => 3 * 24 * 60 * 60 * 1000
  | .d7 => 7 * 24 * 60 * 60 * 1000
  | .d30 => 30 * 24 * 60 * 60 * 1000

/-- One parsed feed entry, after the per-dialect extraction inside the
loop: title, link, HTML-stripped description, and the publish-date
text (`pubDate || dc:date || ''` resp. `published || updated ||
''`). -/
structure RSSEntry where
  title : String
  link : String
  description : String
  pubDate : String
deriving DecidableEq, Repr

/-- The date resolution of the RSS loop, lines 217–229: a present,
non-blank date text is parsed with `new Date(...)`; an invalid parse
logs a warning and falls back to now; an absent/blank text also
yields now. -/
def rssResolveDate (dateParse : String → Option Int) (now : Int)
    (pubDate : String) : Int :=
  if pubDate != "" && jsTrim pubDate != "" then
    match dateParse pubDate with
    | some t => t
    | none => now
  else now

/-- The item constructed at loop index `idx`, lines 236–244. -/
def mkRssItem (url : String) (sourceName : Option String) (idx : Nat)
    (e : RSSEntry) (t : Int) : FeedItem :=
  { id := "rss-" ++ url ++ "-" ++ toString idx,
    title := e.title,
    source := "RSS",
    sourceName := sourceName,
    url := e.link,
    summary := some (String.mk (e.description.data.take 200)),
    publishedAt := some (.str (isoOfMillis t)) }

/-- The `for` loop of `RSSSource.fetch`: entries older than the cutoff
are skipped (`continue`), the rest are pushed with their resolved
date. -/
def rssProcess (dateParse : String → Option Int) (now cutoff : Int)
    (url : String) (sourceName : Option String) :
    Nat → List RSSEntry → List FeedItem
  | _, [] => []
  | idx, e :: rest =>
    let t := rssResolveDate dateParse now e.pubDate
    if t < cutoff then
      rssProcess dateParse now cutoff url sourceName (idx + 1) rest
    else
      mkRssItem url sourceName idx e t
        :: rssProcess dateParse now cutoff url sourceName (idx + 1) rest

/-- Model of `RSSSource.fetch` after the XML parse: `maxCount` is
`options?.count || 100`, the window is `options?.timeRange || '7d'`,
the loop runs over the first `min(items.length, maxCount)` entries. -/
def rssMaxCount (count : Option Nat) : Nat :=
  match count with
  | some n => if n == 0 then 100 else n
  | none => 100

def rssFetch (dateParse : String → Option Int) (now : Int)
    (count : Option Nat) (timeRange : Option FetchTimeRange) (url : String)
    (sourceName : Option String) (entries : List RSSEntry) : List FeedItem :=
  let cutoffTime := now - TIME_RANGE_MS (timeRange.getD .d7)
  rssProcess dateParse now cutoffTime url sourceName 0
    (entries.take (min entries.length (rssMaxCount count)))

/-- Parsed entries for the C6 example: dated today, two days ago and
ten days ago.  `exampleNow` is 2025-10-11T00:00:00Z. -/
def exampleNow : Int := 1760140800000

def rssEntryToday : RSSEntry :=
  { title := "today", link := "l0", description := "", pubDate := "D0" }

def rssEntryTwoDays : RSSEntry :=
  { title := "two days ago", link := "l1", description := "", pubDate := "D2" }

def rssEntryTenDays : RSSEntry :=
  { title := "ten days ago", link := "l2", description := "", pubDate := "D10" }

/-- A `Date.parse` resolving the three example date texts. -/
def rssDateParseExample : String → Option Int := fun s =>
  if s == "D0" then some exampleNow
  else if s == "D2" then some (exampleNow - 2 * 24 * 60 * 60 * 1000)
  else if s == "D10" then some (exampleNow - 10 * 24 * 60 * 60 * 1000)
  else none

/-! ### HackerNews adapter — `HackerNewsSource.fetch` (part_005, lines 347–389) -/

/-- The HackerNews item API shape (`by` is rendered `byUser` because
`by` is reserved in Lean). -/
structure HackerNewsItem where
  id : Int
  title : String
  url : Option String
  byUser : String
  time : Int
  score : Int
  descendants : Int
  text : Option String

/-- The per-item mapping of `HackerNewsSource.fetch`, lines 373–383:
id via `generateId`, url with the item-page fallback (`||`, so an
empty url string also falls back), summary only for truthy `text`,
`publishedAt` from the epoch-seconds `time`. -/
def hnConvert (item : HackerNewsItem) : FeedItem :=
  { id := jsToLower "HackerNews" ++ "-" ++ toString item.id,
    title := item.title,
    source := "HackerNews",
    url := jsOrStr item.url
      ("https://news.ycombinator.com/item?id=" ++ toString item.id),
    summary := match item.text with
      | some tx =>
        if tx == "" then none else some (cleanString tx (some 200))
      | none => none,
    publishedAt := (parseTimestamp (fun _ => none) (.num item.time) .s).map
      (fun s => .str s),
    author := some item.byUser,
    score := some item.score,
    commentCount := some item.descendants }

/-- Model of `HackerNewsSource.fetch`: `count = options.count ?? 15`, `minScore
= options.minScore ?? 100`; take `min(count * 3, 100)` ids from the
ordered top-story list, fetch each detail (`detail` abstracts the
per-id endpoint; the `Promise.all` keeps the ids' order), filter by
score, truncate to `count`, map. -/
def hnFetch (storyIds : List Int) (detail : Int → HackerNewsItem)
    (countOpt : Option Nat) (minScoreOpt : Option Int) : List FeedItem :=
  let count := countOpt.getD 15
  let minScore := minScoreOpt.getD 100
  let fetchCount := min (count * 3) 100
  let topStoryIds := storyIds.take fetchCount
  let items := topStoryIds.map detail
  ((items.filter (fun i => decide (minScore ≤ i.score))).take count).map
    hnConvert

/-- A concrete detail table for the C7 witness. -/
def hnDetailExample : Int → HackerNewsItem := fun i =>
  { id := i, title := "story " ++ toString i, url := none,
    byUser := "alice", time := 1000000000 + i, score := 50 + 60 * i,
    descendants := 3, text := none }

/-! ### Storage import/export — `storage.ts` (part_006)

The persistence capability (`safeStorageGet`/`safeStorageSet`) always
resolves, so the storage state is threaded as a value.  `Cfg` and `It`
abstract the `AppConfig` and `FeedItem` blobs JSON carries. -/

/-- The two formats of `exportData`/`importData`. -/
inductive PortFormat where
  | json
  | csv
deriving DecidableEq, Repr

/-- The slice of stored state that `importData` touches. -/
structure StorageState (Cfg It : Type) where
  config : Cfg
  feeds : List It
deriving DecidableEq, Repr

/-- Outcome of `JSON.parse` as observed by `importData`'s property
accesses: `null` (whose property access throws), or anything else,
carrying a present-and-truthy `config` and/or `feeds` field.  (A
primitive parse result simply has neither field.) -/
inductive ImportJson (Cfg It : Type) where
  | jnull
  | jobj (config : Option Cfg) (feeds : Option (List It))

/-- Model of `importData` (part_006, lines 121–134): csv is rejected; a JSON
parse failure or a throwing property access is caught, logs, and
reports `false` with nothing written; otherwise the present parts are
written via `saveConfig`/`saveFeeds` (which always resolve) and `true`
is reported. -/
def importData {Cfg It : Type}
    (parseJson : String → Option (ImportJson Cfg It)) (data : String)
    (format : PortFormat) (σ : StorageState Cfg It) :
    Bool × StorageState Cfg It :=
  match format with
  | .csv => (false, σ)
  | .json =>
    match parseJson data with
    | none => (false, σ)
    | some .jnull => (false, σ)
    | some (.jobj c f) =>
      let σ1 := match c with
        | some cfg => { σ with config := cfg }
        | none => σ
      let σ2 := match f with
        | some fs => { σ1 with feeds := fs }
        | none => σ1
      (true, σ2)

/-- A concrete parse table for the C9 witness over `Cfg = It =
String`. -/
def parseJsonExample : String → Option (ImportJson String String) := fun s =>
  if s == "ok" then some (.jobj (some "cfg2") (some ["i1", "i2"]))
  else if s == "null" then some .jnull
  else none

/-- CSV field quoting of `exportData`: wrap in double quotes, doubling
embedded double quotes (`replace(/"/g, s)` with a two-quote
replacement), per RFC 4180. -/
def csvQuote (s : String) : String :=
  "\"" ++ String.mk (s.data.flatMap
    (fun c => if c == '\"' then ['\"', '\"'] else [c])) ++ "\""

/-- The fixed CSV header of `exportData`. -/
def csvHeader : String :=
  String.intercalate ","
    ["id", "title", "source", "url", "summary", "publishedAt", "tags",
      "aiSummary"]

/-- One CSV row of `exportData` (part_006, lines 102–116).  The date
column evaluates `typeof feed.publishedAt === 'string' ?
feed.publishedAt : feed.publishedAt.toISOString()`; when `publishedAt`
is absent this is `undefined.toISOString()`, a `TypeError`, modelled
as `Except.error`. -/
def exportCsvRow (feed : FeedItem) : Except Unit String :=
  match feed.publishedAt with
  | none => .error ()
  | some pa =>
    let dateStr := match pa with
      | .str s => s
      | .date ms => isoOfMillis ms
    .ok (String.intercalate ","
      [feed.id, csvQuote feed.title, feed.source, feed.url,
        csvQuote (feed.summary.getD ""), dateStr,
        csvQuote (String.intercalate "," (feed.tags.getD [])),
        csvQuote (feed.aiSummary.getD "")])

/-- The CSV branch of `exportData`: header line then one row per
stored feed item, joined with newlines; a thrown row aborts the whole
export. -/
def exportCsv (feeds : List FeedItem) : Except Unit String := do
  let rows ← feeds.mapM exportCsvRow
  return String.intercalate "\n" (csvHeader :: rows)

/-- A stored GitHub-trending item: `GitHubSource` always sets
`publishedAt: undefined`. -/
def ghTrendingItem : FeedItem :=
  { id := "github-foo-bar", title := "foo/bar", source := "GitHub",
    url := "https://github.com/foo/bar",
    summary := some "a repo", tags := some ["Rust", "GitHub Trending"],
    score := some 1500, upvotes := some 1500, author := some "foo" }

/-- A stored item with a present ISO `publishedAt` and a title holding
an embedded double quote. -/
def csvOkItem : FeedItem :=
  { id := "x-1", title := "He said \"hi\"", source := "RSS",
    url := "https://x.example", summary := some "sum",
    publishedAt := some (.str "2025-01-01T00:00:00.000Z"),
    tags := some ["a", "b"], aiSummary := some "ai" }

/-- A previously cached item for the C2 scenario. -/
def cachedItemX : FeedItem :=
  { id := "hackernews-1", title := "cached story", source := "HackerNews",
    url := "https://news.ycombinator.com/item?id=1" }

/-- Concrete sources for the C4 witness: one pinned source with an
older item, one explicitly unpinned source with a newer item. -/
def pinSrc : SourceConfig := { id := "p", enabled := true, isPinned := some true }

def unpinSrc : SourceConfig :=
  { id := "u", enabled := true, isPinned := some false }

def pinItemOld : FeedItem :=
  { id := "po", title := "pinned old", source := "P", url := "",
    publishedAt := some (.date 500) }

def unpinItemNew : FeedItem :=
  { id := "un", title := "unpinned new", source := "U", url := "",
    publishedAt := some (.date 2000) }

def pinFetch : SourceConfig → Option (List FeedItem) := fun s =>
  if s.id == "p" then some [pinItemOld] else some [unpinItemNew]

def pinStampedOld : FeedItem := stampPinned (some true) pinItemOld

def unpinStampedNew : FeedItem := stampPinned (some false) unpinItemNew

end InfoTrend

namespace InfoTrend

/-! ## Theorems -/

/-- C1.  The freshness policy: no metadata or a missing/falsy
`lastUpdateTime` forces a refresh; a stored `lastUpdateDate` different
from today's date forces a refresh regardless of age; otherwise with
`age = now - lastUpdateTime` the strategy is FORCE above 6 hours,
SILENT between 30 minutes (exclusive) and 6 hours (inclusive), and
IMMEDIATE up to 30 minutes.  The hypothesis `hnow` states that the
wall clock is past 1970-01-01 06:00, which is true of every actual
run; it settles the JavaScript-falsy case `lastUpdateTime = 0`, whose
age is then necessarily above the 6-hour threshold. -/
theorem getRefreshStrategy_spec (now : Int) (today : String)
    (hnow : FORCE_THRESHOLD_MS < now) :
    getRefreshStrategy now today none = .force
    ∧ (∀ md : DataMetadata, md.lastUpdateTime = none →
        getRefreshStrategy now today (some md) = .force)
    ∧ (∀ (md : DataMetadata) (t : Int), md.lastUpdateTime = some t →
        md.lastUpdateDate ≠ today →
        getRefreshStrategy now today (some md) = .force)
    ∧ (∀ (md : DataMetadata) (t : Int), md.lastUpdateTime = some t →
        md.lastUpdateDate = today →
        ((FORCE_THRESHOLD_MS < now - t →
            getRefreshStrategy now today (some md) = .force)
         ∧ (SILENT_THRESHOLD_MS < now - t → now - t ≤ FORCE_THRESHOLD_MS →
            getRefreshStrategy now today (some md) = .silent)
         ∧ (now - t ≤ SILENT_THRESHOLD_MS →
            getRefreshStrategy now today (some md) = .immediate))) := by
  refine ⟨rfl, ?_, ?_, ?_⟩
  · intro md h
    simp [getRefreshStrategy, falsyTime, h]
  · intro md t ht hd
    by_cases h0 : t = 0
    · simp [getRefreshStrategy, falsyTime, ht, h0]
    · have hne : isNewDay today md.lastUpdateDate = true := by
        simp [isNewDay, isSameDay]
        exact fun h => absurd h hd
      simp [getRefreshStrategy, falsyTime, ht, h0, hne]
  · intro md t ht hd
    by_cases h0 : t = 0
    · subst h0
      refine ⟨?_, ?_, ?_⟩
      · intro _
        simp [getRefreshStrategy, falsyTime, ht]
      · intro h1 h2
        exact absurd (lt_of_lt_of_le hnow (by simpa using h2)) (lt_irrefl _)
      · intro h1
        have : FORCE_THRESHOLD_MS < SILENT_THRESHOLD_MS :=
          lt_of_lt_of_le hnow (by simpa using h1)
        exact absurd this (by decide)
    · have hsame : isNewDay today md.lastUpdateDate = false := by
        simp [isNewDay, isSameDay, hd]
      refine ⟨?_, ?_, ?_⟩
      · intro hage
        simp [getRefreshStrategy, falsyTime, ht, h0, hsame,
          calculateDataAge, hage]
      · intro h1 h2
        have hnotf : ¬ (FORCE_THRESHOLD_MS < now - t) := not_lt.mpr h2
        simp [getRefreshStrategy, falsyTime, ht, h0, hsame,
          calculateDataAge, hnotf, h1]
      · intro h1
        have hnotf : ¬ (FORCE_THRESHOLD_MS < now - t) :=
          not_lt.mpr (le_trans h1 (by decide))
        have hnots : ¬ (SILENT_THRESHOLD_MS < now - t) := not_lt.mpr h1
        simp [getRefreshStrategy, falsyTime, ht, h0, hsame,
          calculateDataAge, hnotf, hnots]

/-- Helper: the fold that models `results.forEach(... allItems.push(...))`
in `fetchFromMany` concatenates the per-name results in order. -/
theorem foldl_append_eq_flatten (rs : List (List FeedItem)) (acc : List FeedItem) :
    rs.foldl (fun allItems r => allItems ++ r) acc = acc ++ rs.flatten := by
  induction rs generalizing acc with
  | nil => simp
  | cons r rs ih => simp [List.foldl_cons, ih, List.append_assoc]

/-- C3.  `fetchFromMany` never throws (it is a total function of the
adapters' behaviours): an unregistered name contributes `[]`, a name
whose adapter throws contributes `[]`, and the result is the
concatenation of each name's `fetchFrom` result in the order the names
were given.  In particular, with adapter "A" resolving two items and
adapter "B" throwing, `fetchFromMany ["A", "B"]` returns exactly A's
two items. -/
theorem fetchFromMany_spec (reg : Registry) (names : List String) :
    fetchFromMany reg names = (names.map (fun n => fetchFrom reg n)).flatten
    ∧ (∀ n, registryGet reg n = none → fetchFrom reg n = [])
    ∧ (∀ n e, registryGet reg n = some (.error e) → fetchFrom reg n = [])
    ∧ fetchFromMany exampleRegistry ["A", "B"] = [itemA1, itemA2] := by
  refine ⟨?_, ?_, ?_, rfl⟩
  · simpa using foldl_append_eq_flatten (names.map (fun n => fetchFrom reg n)) []
  · intro n h
    simp [fetchFrom, h]
  · intro n e h
    simp [fetchFrom, h]

/-- Witness for C3: the theorem applied to the concrete registry, with
the unregistered name "C" discharging the lookup hypothesis. -/
theorem fetchFromMany_spec_witness :
    registryGet exampleRegistry "C" = none
    ∧ fetchFrom exampleRegistry "C" = []
    ∧ fetchFromMany exampleRegistry ["A", "B"] = [itemA1, itemA2] :=
  ⟨rfl, (fetchFromMany_spec exampleRegistry ["A", "B"]).2.1 "C" rfl,
    (fetchFromMany_spec exampleRegistry ["A", "B"]).2.2.2⟩

/-- Counterexample for C8.  The claim states `ensureArray(x) = [x]`
for every non-array scalar `x`; but `ensureArray` tests `!value`, so
the falsy scalar `0` (a legitimate number) is sent to `[]`, not
`[0]`. -/
theorem ensureArray_counterexample :
    ensureArray (fun n : Int => n == 0) (.scalar 0) = []
    ∧ ensureArray (fun n : Int => n == 0) (.scalar 0) ≠ [0] := by
  constructor
  · rfl
  · decide

/-- C8 as amended: `ensureArray undefined = []`; a *truthy* non-array
scalar `x` yields `[x]`; a falsy scalar (`0`, `NaN`, `""`, `false`,
`null`) yields `[]`; and every array — including the empty array,
which is truthy in JavaScript — is returned unchanged. -/
theorem ensureArray_amended {α : Type} (isFalsy : α → Bool) :
    ensureArray isFalsy (.undef : XmlValue α) = []
    ∧ (∀ x : α, isFalsy x = false → ensureArray isFalsy (.scalar x) = [x])
    ∧ (∀ x : α, isFalsy x = true → ensureArray isFalsy (.scalar x) = [])
    ∧ (∀ xs : List α, ensureArray isFalsy (.arr xs) = xs) := by
  refine ⟨rfl, ?_, ?_, fun xs => rfl⟩
  · intro x h
    simp [ensureArray, h]
  · intro x h
    simp [ensureArray, h]

/-- Witness for C8: the amended statement applied to integers with
JavaScript number-falsiness, at the truthy scalar `5` and the falsy
scalar `0`. -/
theorem ensureArray_amended_witness :
    ensureArray (fun n : Int => n == 0) (.scalar 5) = [5]
    ∧ ensureArray (fun n : Int => n == 0) (.scalar 0) = []
    ∧ ensureArray (fun n : Int => n == 0) (.arr [1, 2]) = [1, 2] :=
  ⟨(ensureArray_amended (fun n : Int => n == 0)).2.1 5 (by decide),
    (ensureArray_amended (fun n : Int => n == 0)).2.2.1 0 (by decide),
    (ensureArray_amended (fun n : Int => n == 0)).2.2.2 [1, 2]⟩

/-- C2, evaluated at the failing input.  One enabled, registered
source holds a cache entry with one item; its adapter's fetch throws;
the cache entry is stale (written 30 minutes ago), so the TTL branch
does not fire.  `BaseSource.safeExecute` and `SourceRegistry.fetchFrom`
swallow the throw into `[]` before `fetchDataByType` can see a
rejection, so the source contributes `[]` — not the cached item — and
`saveCache` overwrites the previous entry with `{ items: [],
timestamp: now }`.  The claim (and the spec) say the cached items are
contributed and the stored entry is not replaced. -/
theorem fetchDataByType_failure_clobbers_cache :
    fetchDataByType false 1800000 true (.error "network down")
        (some ⟨[cachedItemX], 0⟩)
      = ([], some ⟨[], 1800000⟩)
    ∧ ([] : List FeedItem) ≠ [cachedItemX]
    ∧ (some (⟨[], 1800000⟩ : CacheEntry)) ≠ some ⟨[cachedItemX], 0⟩ := by
  refine ⟨rfl, by simp, by simp [CacheEntry.mk.injEq]⟩

/-! ### Sorting lemmas for the aggregator (C4) -/

/-- Inserting into a list permutes consing onto it. -/
theorem orderedInsertB_perm {α : Type} (le : α → α → Bool) (a : α)
    (l : List α) : (orderedInsertB le a l).Perm (a :: l) := by
  induction l with
  | nil => exact List.Perm.refl _
  | cons b l ih =>
    by_cases hab : le a b = true
    · rw [show orderedInsertB le a (b :: l) = a :: b :: l by
        simp [orderedInsertB, hab]]
    · rw [show orderedInsertB le a (b :: l) = b :: orderedInsertB le a l by
        simp [orderedInsertB, hab]]
      exact (ih.cons b).trans (List.Perm.swap a b l)

/-- Insertion sort permutes its input. -/
theorem insertionSortB_perm {α : Type} (le : α → α → Bool)
    (l : List α) : (insertionSortB le l).Perm l := by
  induction l with
  | nil => exact List.Perm.refl _
  | cons a l ih =>
    exact (orderedInsertB_perm le a (insertionSortB le l)).trans (ih.cons a)

/-- Membership in an insertion. -/
theorem mem_orderedInsertB {α : Type} (le : α → α → Bool) (a x : α)
    (l : List α) : x ∈ orderedInsertB le a l ↔ x = a ∨ x ∈ l := by
  rw [(orderedInsertB_perm le a l).mem_iff]
  simp

/-- Inserting into a sorted list stays sorted, assuming totality and
transitivity only where they are used: at the inserted element against
the list's members. -/
theorem pairwise_orderedInsertB {α : Type} (le : α → α → Bool) (a : α)
    (l : List α) (hs : l.Pairwise (fun x y => le x y = true))
    (htot : ∀ b ∈ l, le a b = true ∨ le b a = true)
    (htr : ∀ b ∈ l, ∀ c ∈ l, le a b = true → le b c = true → le a c = true) :
    (orderedInsertB le a l).Pairwise (fun x y => le x y = true) := by
  induction l with
  | nil => simp [orderedInsertB]
  | cons b l ih =>
    rw [List.pairwise_cons] at hs
    obtain ⟨hb, hl⟩ := hs
    by_cases hab : le a b = true
    · simp only [orderedInsertB, if_pos hab]
      rw [List.pairwise_cons]
      refine ⟨?_, by rw [List.pairwise_cons]; exact ⟨hb, hl⟩⟩
      intro y hy
      rcases List.mem_cons.mp hy with rfl | hy'
      · exact hab
      · exact htr b (by simp) y (by simp [hy']) hab (hb y hy')
    · simp only [orderedInsertB, if_neg hab]
      rw [List.pairwise_cons]
      constructor
      · intro y hy
        rcases (mem_orderedInsertB le a y l).mp hy with rfl | hy'
        · rcases htot b (by simp) with h | h
          · exact absurd h hab
          · exact h
        · exact hb y hy'
      · exact ih hl (fun c hc => htot c (by simp [hc]))
          (fun c hc d hd => htr c (by simp [hc]) d (by simp [hd]))

/-- Insertion sort sorts, assuming totality and transitivity of the
comparator only on the list's own members. -/
theorem pairwise_insertionSortB {α : Type} (le : α → α → Bool)
    (l : List α)
    (htot : ∀ a ∈ l, ∀ b ∈ l, le a b = true ∨ le b a = true)
    (htr : ∀ a ∈ l, ∀ b ∈ l, ∀ c ∈ l,
      le a b = true → le b c = true → le a c = true) :
    (insertionSortB le l).Pairwise (fun x y => le x y = true) := by
  induction l with
  | nil => simp [insertionSortB]
  | cons a l ih =>
    have hmem : ∀ x ∈ insertionSortB le l, x ∈ l := fun x hx =>
      (insertionSortB_perm le l).mem_iff.mp hx
    refine pairwise_orderedInsertB le a (insertionSortB le l) ?_ ?_ ?_
    · exact ih (fun c hc d hd => htot c (by simp [hc]) d (by simp [hd]))
        (fun c hc d hd e he =>
          htr c (by simp [hc]) d (by simp [hd]) e (by simp [he]))
    · intro b hb
      exact htot a (by simp) b (by simp [hmem b hb])
    · intro b hb c hc
      exact htr a (by simp) b (by simp [hmem b hb]) c (by simp [hmem c hc])

/-- Insertion sort is a conforming `Array.prototype.sort`. -/
theorem insertionSortB_isJsSort : IsJsSort (@insertionSortB FeedItem) := by
  intro le l
  refine ⟨insertionSortB_perm le l, ?_⟩
  intro hcons
  exact pairwise_insertionSortB le l hcons.1 hcons.2

/-- The implementation-defined sort of the C4 counterexample is also
conforming: it deviates from insertion sort only on a pair whose
comparison is inconsistent, where the sortedness guarantee is
vacuous. -/
theorem badSort_isJsSort : IsJsSort badSort := by
  intro le l
  by_cases h : (l == [cexStampedNew, cexStampedOld]
      && !(le cexStampedNew cexStampedOld
            || le cexStampedOld cexStampedNew)) = true
  · rw [Bool.and_eq_true] at h
    obtain ⟨hl, hle⟩ := h
    have hl' : l = [cexStampedNew, cexStampedOld] := by
      exact eq_of_beq hl
    rw [Bool.not_eq_true', Bool.or_eq_false_iff] at hle
    constructor
    · show (badSort le l).Perm l
      rw [show badSort le l = [cexStampedOld, cexStampedNew] by
        simp [badSort, hl, hle.1, hle.2], hl']
      exact List.Perm.swap cexStampedNew cexStampedOld []
    · intro hcons
      rcases hcons.1 cexStampedNew (by rw [hl']; simp)
          cexStampedOld (by rw [hl']; simp) with hc | hc
      · rw [hle.1] at hc; cases hc
      · rw [hle.2] at hc; cases hc
  · have hb : badSort le l = insertionSortB le l := by
      rw [Bool.not_eq_true] at h
      simp only [badSort]
      rw [h]
      rfl
    rw [hb]
    exact insertionSortB_isJsSort le l

/-- A list permuting a two-element list is that list or its
reversal. -/
theorem perm_pair_eq {α : Type} [DecidableEq α] {l : List α} {a b : α}
    (h : l.Perm [a, b]) : l = [a, b] ∨ l = [b, a] := by
  have hlen : l.length = 2 := by simpa using h.length_eq
  match l, hlen with
  | [x, y], _ =>
    by_cases hxa : x = a
    · subst hxa
      have hyb : y = b := by
        have h' := h.cons_inv
        have := h'.mem_iff.mp (show y ∈ [y] by simp)
        simpa using this
      subst hyb
      exact Or.inl rfl
    · have hx : x = a ∨ x = b := by
        have := h.mem_iff.mp (show x ∈ [x, y] by simp)
        simpa using this
      have hxb : x = b := hx.resolve_left hxa
      subst hxb
      have hay : a = y := by
        have := h.mem_iff.mpr (show a ∈ [a, x] by simp)
        rcases (by simpa using this : a = x ∨ a = y) with h' | h'
        · exact absurd h'.symm hxa
        · exact h'
      subst hay
      exact Or.inr rfl

/-- Characterisation of the comparator-induced order on a pair whose
comparison is consistent (no absent-versus-explicit-false `isPinned`
pair): `a` may precede `b` exactly when `a` is pinned and `b` is not,
or their pinned status agrees and `a`'s date is at least `b`'s. -/
theorem sortLe_char (dp : String → Option Int) (a b : FeedItem)
    (hab : ¬(a.isPinned = none ∧ b.isPinned = some false))
    (hba : ¬(b.isPinned = none ∧ a.isPinned = some false)) :
    sortLe dp a b = true ↔
      (pinnedFlag b = false ∧ pinnedFlag a = true)
      ∨ (pinnedFlag a = pinnedFlag b ∧ jsDateOf dp b ≤ jsDateOf dp a) := by
  rcases ha : a.isPinned with _ | pa
  · rcases hb : b.isPinned with _ | pb
    · simp [sortLe, sortCmp, pinnedFlag, ha, hb]
    · cases pb
      · exact absurd ⟨ha, hb⟩ hab
      · simp [sortLe, sortCmp, pinnedFlag, ha, hb]
  · rcases hb : b.isPinned with _ | pb
    · cases pa
      · exact absurd ⟨hb, ha⟩ hba
      · simp [sortLe, sortCmp, pinnedFlag, ha, hb]
    · cases pa <;> cases pb <;>
      simp [sortLe, sortCmp, pinnedFlag, ha, hb]

/-- When the stamped items never pair an absent `isPinned` with an
explicit `false` one, the comparator is consistent on them. -/
theorem consistent_of_noMix (dp : String → Option Int)
    (items : List FeedItem) (h : NoPinnedMix items) :
    Consistent (sortLe dp) items := by
  have hpair : ∀ a ∈ items, ∀ b ∈ items,
      ¬(a.isPinned = none ∧ b.isPinned = some false) := by
    intro a ha b hb hcontra
    exact h ⟨⟨a, ha, hcontra.1⟩, ⟨b, hb, hcontra.2⟩⟩
  constructor
  · intro a ha b hb
    rw [sortLe_char dp a b (hpair a ha b hb) (hpair b hb a ha),
        sortLe_char dp b a (hpair b hb a ha) (hpair a ha b hb)]
    cases hfa : pinnedFlag a <;> cases hfb : pinnedFlag b <;>
      simp [hfa, hfb] <;> omega
  · intro a ha b hb c hc h1 h2
    rw [sortLe_char dp a b (hpair a ha b hb) (hpair b hb a ha)] at h1
    rw [sortLe_char dp b c (hpair b hb c hc) (hpair c hc b hb)] at h2
    rw [sortLe_char dp a c (hpair a ha c hc) (hpair c hc a ha)]
    rcases h1 with ⟨hb1, ha1⟩ | ⟨heq1, hd1⟩ <;>
      rcases h2 with ⟨hc2, hb2⟩ | ⟨heq2, hd2⟩
    · rw [hb1] at hb2
      cases hb2
    · refine Or.inl ⟨?_, ha1⟩
      rw [← heq2]
      exact hb1
    · refine Or.inl ⟨hc2, ?_⟩
      rw [heq1]
      exact hb2
    · exact Or.inr ⟨heq1.trans heq2, le_trans hd2 hd1⟩

/-- Counterexample for C4.  Source "a" leaves `isPinned` unset (as all
default sources do) while source "b" was explicitly unpinned
(`isPinned: false`).  On the two stamped items the comparator is
inconsistent (`undefined !== false`, then falsy-pinned gives `1` in
both directions), so ECMAScript leaves the order
implementation-defined; the conforming sort `badSort` returns the
older unpinned item ahead of the newer one, violating the claimed
publishedAt-descending order within equal pinned status. -/
theorem fetchAllData_counterexample :
    IsJsSort badSort
    ∧ fetchAllData badSort (fun _ => none) [cexSrcA, cexSrcB] cexFetch
        = [cexStampedOld, cexStampedNew]
    ∧ pinnedFlag cexStampedOld = false
    ∧ pinnedFlag cexStampedNew = false
    ∧ jsDateOf (fun _ => none) cexStampedOld
        < jsDateOf (fun _ => none) cexStampedNew
    ∧ ¬ (fetchAllData badSort (fun _ => none) [cexSrcA, cexSrcB]
          cexFetch).Pairwise (claimedOrder (fun _ => none)) := by
  have heq : fetchAllData badSort (fun _ => none) [cexSrcA, cexSrcB] cexFetch
      = [cexStampedOld, cexStampedNew] := by decide
  refine ⟨badSort_isJsSort, heq, rfl, rfl, by decide, ?_⟩
  rw [heq]
  intro hpw
  rcases List.pairwise_cons.mp hpw with ⟨hrel, _⟩
  have hdate := (hrel cexStampedNew (by simp)).2 rfl
  exact absurd hdate (by decide)

/-- C4 as amended.  For every ECMAScript-conforming sort, every
`Date.parse` behaviour and every source list whose stamped items do
not pair an absent `isPinned` with an explicit `false` one, the merged
result is a permutation of the enabled sources' contributions stamped
with their source's `isPinned`, it is ordered pinned-first and then by
`publishedAt` descending (missing dates as epoch zero), and in
particular when the contributions are exactly one pinned and one
unpinned item the pinned one comes first regardless of recency. -/
theorem fetchAllData_amended (impl : SortImpl) (himpl : IsJsSort impl)
    (dp : String → Option Int) (sources : List SourceConfig)
    (fetchResult : SourceConfig → Option (List FeedItem))
    (hmix : NoPinnedMix
      (collectResults (sources.filter (fun s => s.enabled)) fetchResult)) :
    (fetchAllData impl dp sources fetchResult).Perm
        (collectResults (sources.filter (fun s => s.enabled)) fetchResult)
    ∧ (fetchAllData impl dp sources fetchResult).Pairwise (claimedOrder dp)
    ∧ (∀ p u,
        collectResults (sources.filter (fun s => s.enabled)) fetchResult
          = [p, u] →
        pinnedFlag p = true → pinnedFlag u = false →
        fetchAllData impl dp sources fetchResult = [p, u]) := by
  obtain ⟨hperm, hsorted⟩ := himpl (sortLe dp)
    (collectResults (sources.filter (fun s => s.enabled)) fetchResult)
  have hcons := consistent_of_noMix dp _ hmix
  have hpw := hsorted hcons
  have hpair : ∀ a ∈ collectResults (sources.filter (fun s => s.enabled))
        fetchResult,
      ∀ b ∈ collectResults (sources.filter (fun s => s.enabled)) fetchResult,
      ¬(a.isPinned = none ∧ b.isPinned = some false) := by
    intro a ha b hb hcontra
    exact hmix ⟨⟨a, ha, hcontra.1⟩, ⟨b, hb, hcontra.2⟩⟩
  have hclaim : (fetchAllData impl dp sources fetchResult).Pairwise
      (claimedOrder dp) := by
    refine hpw.imp_of_mem ?_
    intro a b hma hmb hle
    have hma' := hperm.mem_iff.mp hma
    have hmb' := hperm.mem_iff.mp hmb
    rcases (sortLe_char dp a b (hpair a hma' b hmb')
        (hpair b hmb' a hma')).mp hle with ⟨h1, h2⟩ | ⟨h1, h2⟩
    · constructor
      · intro hbt
        rw [h1] at hbt
        cases hbt
      · intro heq
        rw [h2, h1] at heq
        cases heq
    · exact ⟨fun hbt => h1.trans hbt, fun _ => h2⟩
  refine ⟨hperm, hclaim, ?_⟩
  intro p u hcoll hp hu
  have hperm2 : (fetchAllData impl dp sources fetchResult).Perm [p, u] := by
    rw [← hcoll]
    exact hperm
  rcases perm_pair_eq hperm2 with h | h
  · exact h
  · exfalso
    rw [h] at hclaim
    rcases List.pairwise_cons.mp hclaim with ⟨hrel, _⟩
    have hflag := (hrel p (by simp)).1 hp
    rw [hu] at hflag
    cases hflag

/-- Witness for C4's amended theorem: insertion sort (a conforming
sort), a pinned source holding an older item and an explicitly
unpinned source holding a newer one; the pinned item is placed
first. -/
theorem fetchAllData_amended_witness :
    NoPinnedMix
      (collectResults ([pinSrc, unpinSrc].filter (fun s => s.enabled)) pinFetch)
    ∧ fetchAllData (@insertionSortB FeedItem) (fun _ => none)
        [pinSrc, unpinSrc] pinFetch = [pinStampedOld, unpinStampedNew] := by
  have hmix : NoPinnedMix
      (collectResults ([pinSrc, unpinSrc].filter (fun s => s.enabled))
        pinFetch) := by
    unfold NoPinnedMix
    decide
  refine ⟨hmix, ?_⟩
  exact (fetchAllData_amended (@insertionSortB FeedItem)
    insertionSortB_isJsSort (fun _ => none) [pinSrc, unpinSrc] pinFetch
    hmix).2.2 pinStampedOld unpinStampedNew (by decide) rfl rfl

/-- Witness for C1: the policy evaluated at a concrete clock
(25,000,000 ms ≈ 6.9 h after epoch) and concrete metadata, one input
per tier. -/
theorem getRefreshStrategy_spec_witness :
    getRefreshStrategy 25000000 "1970-01-01" none = .force
    ∧ getRefreshStrategy 25000000 "1970-01-01"
        (some ⟨none, "1970-01-01"⟩) = .force
    ∧ getRefreshStrategy 25000000 "1970-01-01"
        (some ⟨some 24900000, "1969-12-31"⟩) = .force
    ∧ getRefreshStrategy 25000000 "1970-01-01"
        (some ⟨some 1000000, "1970-01-01"⟩) = .force
    ∧ getRefreshStrategy 25000000 "1970-01-01"
        (some ⟨some 22000000, "1970-01-01"⟩) = .silent
    ∧ getRefreshStrategy 25000000 "1970-01-01"
        (some ⟨some 24500000, "1970-01-01"⟩) = .immediate := by
  have h := getRefreshStrategy_spec 25000000 "1970-01-01" (by decide)
  refine ⟨h.1, h.2.1 _ rfl, h.2.2.1 _ 24900000 rfl (by decide),
    (h.2.2.2 _ 1000000 rfl rfl).1 (by decide),
    (h.2.2.2 _ 22000000 rfl rfl).2.1 (by decide) (by decide),
    (h.2.2.2 _ 24500000 rfl rfl).2.2 (by decide)⟩

/-- C5.  `parseTimestamp` maps a valid epoch-seconds number (unit
`'s'`) to the ISO rendering of exactly `n * 1000` ms — the same
instant, so within any 1-second tolerance — and a valid
epoch-milliseconds number to the ISO rendering of exactly that
instant; a string that `Date.parse` resolves to instant `t` (every
valid ISO-8601 or RFC-2822 string) is mapped to the ISO rendering of
exactly `t`; absent input (`undefined`/`null`) yields `undefined`; and
a string that neither `Date.parse` nor the canonical-integer fallback
accepts yields `undefined` — never a substituted default date. -/
theorem parseTimestamp_spec (dateParse : String → Option Int) :
    (∀ n : Int, validTime (n * 1000) = true →
      parseTimestamp dateParse (.num n) .s = some (isoOfMillis (n * 1000)))
    ∧ (∀ n : Int, validTime n = true →
      parseTimestamp dateParse (.num n) .ms = some (isoOfMillis n))
    ∧ (∀ (s : String) (t : Int) (u : TimeUnit), dateParse s = some t →
      validTime t = true →
      parseTimestamp dateParse (.str s) u = some (isoOfMillis t))
    ∧ (∀ u : TimeUnit, parseTimestamp dateParse .undef u = none
        ∧ parseTimestamp dateParse .null u = none)
    ∧ (∀ (s : String) (u : TimeUnit), dateParse s = none →
      jsParseIntCanon s = none →
      parseTimestamp dateParse (.str s) u = none) := by
  refine ⟨?_, ?_, ?_, fun u => ⟨rfl, rfl⟩, ?_⟩
  · intro n h
    simp [parseTimestamp, h]
  · intro n h
    simp [parseTimestamp, h]
  · intro s t u h hv
    simp [parseTimestamp, h, hv]
  · intro s u h1 h2
    simp [parseTimestamp, h1, h2]

/-- Witness for C5: a seconds-precision number, a recognised ISO
string, absent inputs, and an unparseable string, under a concrete
`Date.parse`. -/
theorem parseTimestamp_spec_witness :
    validTime ((10 : Int) * 1000) = true
    ∧ parseTimestamp dateParseExample (.num 10) .s
        = some "1970-01-01T00:00:10.000Z"
    ∧ dateParseExample "1970-01-01T00:00:10.000Z" = some 10000
    ∧ parseTimestamp dateParseExample
        (.str "1970-01-01T00:00:10.000Z") .ms
        = some "1970-01-01T00:00:10.000Z"
    ∧ parseTimestamp dateParseExample .undef .ms = none
    ∧ parseTimestamp dateParseExample .null .s = none
    ∧ dateParseExample "not a date" = none
    ∧ jsParseIntCanon "not a date" = none
    ∧ parseTimestamp dateParseExample (.str "not a date") .ms = none := by
  have h := parseTimestamp_spec dateParseExample
  refine ⟨by decide, ?_, by decide, ?_, (h.2.2.2.1 .ms).1, (h.2.2.2.1 .s).2,
    by decide, by decide, h.2.2.2.2 "not a date" .ms (by decide) (by decide)⟩
  · rw [h.1 10 (by decide)]
    decide
  · rw [h.2.2.1 "1970-01-01T00:00:10.000Z" 10000 .ms (by decide) (by decide)]
    decide

/-- Every window of `TIME_RANGE_MS` is positive. -/
theorem TIME_RANGE_MS_pos (tr : FetchTimeRange) : 0 < TIME_RANGE_MS tr := by
  cases tr <;> decide

/-- Every item emitted by the RSS loop carries a resolved date at or
after the cutoff. -/
theorem rssProcess_publishedAt (dp : String → Option Int) (now cutoff : Int)
    (url : String) (sn : Option String) (idx : Nat) (l : List RSSEntry) :
    ∀ item ∈ rssProcess dp now cutoff url sn idx l,
      ∃ t, cutoff ≤ t ∧ item.publishedAt = some (.str (isoOfMillis t)) := by
  induction l generalizing idx with
  | nil =>
    intro item h
    simp [rssProcess] at h
  | cons e rest ih =>
    intro item h
    simp only [rssProcess] at h
    by_cases hc : rssResolveDate dp now e.pubDate < cutoff
    · rw [if_pos hc] at h
      exact ih (idx + 1) item h
    · rw [if_neg hc] at h
      rcases List.mem_cons.mp h with rfl | h'
      · exact ⟨rssResolveDate dp now e.pubDate, not_lt.mp hc, rfl⟩
      · exact ih (idx + 1) item h'

/-- An entry whose date text is present but unparseable is kept, with
now substituted as its date, provided the cutoff is not in the
future. -/
theorem rssProcess_unparseable (dp : String → Option Int) (now cutoff : Int)
    (url : String) (sn : Option String) (hcut : cutoff ≤ now) (idx : Nat)
    (l : List RSSEntry) :
    ∀ e ∈ l, e.pubDate ≠ "" → jsTrim e.pubDate ≠ "" → dp e.pubDate = none →
      ∃ item ∈ rssProcess dp now cutoff url sn idx l,
        item.title = e.title
        ∧ item.publishedAt = some (.str (isoOfMillis now)) := by
  induction l generalizing idx with
  | nil =>
    intro e he
    simp at he
  | cons e' rest ih =>
    intro e he h1 h2 h3
    have hb1 : (e.pubDate != "") = true := by
      simpa using h1
    have hb2 : (jsTrim e.pubDate != "") = true := by
      simpa using h2
    rcases List.mem_cons.mp he with rfl | he'
    · have hres : rssResolveDate dp now e.pubDate = now := by
        simp [rssResolveDate, hb1, hb2, h3]
      have hnotlt : ¬ (rssResolveDate dp now e.pubDate < cutoff) := by
        rw [hres]
        exact not_lt.mpr hcut
      simp only [rssProcess]
      rw [if_neg hnotlt]
      refine ⟨mkRssItem url sn idx e (rssResolveDate dp now e.pubDate),
        by simp, rfl, ?_⟩
      rw [hres]
      rfl
    · obtain ⟨item, hmem, hprops⟩ := ih (idx + 1) e he' h1 h2 h3
      simp only [rssProcess]
      by_cases hc : rssResolveDate dp now e'.pubDate < cutoff
      · rw [if_pos hc]
        exact ⟨item, hmem, hprops⟩
      · rw [if_neg hc]
        exact ⟨item, List.mem_cons_of_mem _ hmem, hprops⟩

/-- C6.  The RSS adapter never returns an item whose resolved publish
date is before `now - window` (window defaulting to 7d); an entry
within the processed prefix whose publish-date text is present but
unparseable is kept with now substituted as its `publishedAt` rather
than dropped; and on the concrete feed with items dated today, two
days ago and ten days ago under a 7d window, exactly the first two
are returned. -/
theorem rssFetch_spec (dp : String → Option Int) (now : Int)
    (count : Option Nat) (timeRange : Option FetchTimeRange) (url : String)
    (sn : Option String) (entries : List RSSEntry) :
    (∀ item ∈ rssFetch dp now count timeRange url sn entries,
      ∃ t, now - TIME_RANGE_MS (timeRange.getD .d7) ≤ t
        ∧ item.publishedAt = some (.str (isoOfMillis t)))
    ∧ (∀ e ∈ entries.take (min entries.length (rssMaxCount count)),
        e.pubDate ≠ "" → jsTrim e.pubDate ≠ "" → dp e.pubDate = none →
        ∃ item ∈ rssFetch dp now count timeRange url sn entries,
          item.title = e.title
          ∧ item.publishedAt = some (.str (isoOfMillis now)))
    ∧ rssFetch rssDateParseExample exampleNow (some 50) (some .d7) "u" none
          [rssEntryToday, rssEntryTwoDays, rssEntryTenDays]
        = [mkRssItem "u" none 0 rssEntryToday exampleNow,
           mkRssItem "u" none 1 rssEntryTwoDays (exampleNow - 172800000)] := by
  refine ⟨?_, ?_, by decide⟩
  · intro item h
    exact rssProcess_publishedAt dp now
      (now - TIME_RANGE_MS (timeRange.getD .d7)) url sn 0
      (entries.take (min entries.length (rssMaxCount count))) item h
  · intro e he h1 h2 h3
    have hcut : now - TIME_RANGE_MS (timeRange.getD .d7) ≤ now := by
      have := TIME_RANGE_MS_pos (timeRange.getD .d7)
      omega
    exact rssProcess_unparseable dp now
      (now - TIME_RANGE_MS (timeRange.getD .d7)) url sn hcut 0
      (entries.take (min entries.length (rssMaxCount count))) e he h1 h2 h3

/-- Witness for C6: the general clauses applied to the concrete
three-entry feed, with an additional entry carrying an unparseable
date text. -/
theorem rssFetch_spec_witness :
    (∃ item ∈ rssFetch rssDateParseExample exampleNow (some 50) (some .d7)
        "u" none [rssEntryToday,
          { title := "bad date", link := "lb", description := "",
            pubDate := "garbage" }],
      item.title = "bad date"
      ∧ item.publishedAt = some (.str (isoOfMillis exampleNow)))
    ∧ rssFetch rssDateParseExample exampleNow (some 50) (some .d7) "u" none
          [rssEntryToday, rssEntryTwoDays, rssEntryTenDays]
        = [mkRssItem "u" none 0 rssEntryToday exampleNow,
           mkRssItem "u" none 1 rssEntryTwoDays (exampleNow - 172800000)] := by
  refine ⟨?_,
    (rssFetch_spec rssDateParseExample exampleNow (some 50) (some .d7) "u"
      none [rssEntryToday, rssEntryTwoDays, rssEntryTenDays]).2.2⟩
  exact (rssFetch_spec rssDateParseExample exampleNow (some 50) (some .d7)
    "u" none [rssEntryToday,
      { title := "bad date", link := "lb", description := "",
        pubDate := "garbage" }]).2.1
    { title := "bad date", link := "lb", description := "",
      pubDate := "garbage" }
    (by decide) (by decide) (by decide) (by decide)

/-- C7.  The HackerNews adapter's result is a function of only the
first `min(count * 3, 100)` ids of the top-story list; every returned
item is the conversion of a fetched detail whose score meets the
minimum (and carries that score); and the result holds at most
`count` items — with no guarantee of exactly `count`. -/
theorem hnFetch_spec (storyIds : List Int) (detail : Int → HackerNewsItem)
    (countOpt : Option Nat) (minScoreOpt : Option Int) :
    (∀ fi ∈ hnFetch storyIds detail countOpt minScoreOpt,
      ∃ hn : HackerNewsItem, minScoreOpt.getD 100 ≤ hn.score
        ∧ fi = hnConvert hn ∧ fi.score = some hn.score)
    ∧ (hnFetch storyIds detail countOpt minScoreOpt).length
        ≤ countOpt.getD 15
    ∧ (∀ ids2 : List Int,
        ids2.take (min (countOpt.getD 15 * 3) 100)
          = storyIds.take (min (countOpt.getD 15 * 3) 100) →
        hnFetch ids2 detail countOpt minScoreOpt
          = hnFetch storyIds detail countOpt minScoreOpt) := by
  refine ⟨?_, ?_, ?_⟩
  · intro fi hfi
    simp only [hnFetch] at hfi
    rcases List.mem_map.mp hfi with ⟨hn, hmem, rfl⟩
    have hmem' := List.mem_of_mem_take hmem
    have hp := List.of_mem_filter hmem'
    exact ⟨hn, by simpa using hp, rfl, rfl⟩
  · simp only [hnFetch]
    rw [List.length_map]
    exact List.length_take_le _ _
  · intro ids2 h
    simp only [hnFetch, h]

/-- Witness for C7: three fetched stories with scores 110, 170, 230
against the default minimum 100; the prefix-dependence clause applied
to a longer id list with the same 45-id prefix. -/
theorem hnFetch_spec_witness :
    (hnFetch [1, 2, 3] hnDetailExample none none).length ≤ 15
    ∧ hnFetch ([1, 2, 3] ++ List.replicate 200 9) hnDetailExample
        (some 1) none
      = hnFetch [1, 2, 3] hnDetailExample (some 1) none
    ∧ (hnFetch [0, 1, 2] hnDetailExample none none).length ≤ 15 := by
  refine ⟨(hnFetch_spec [1, 2, 3] hnDetailExample none none).2.1, ?_,
    (hnFetch_spec [0, 1, 2] hnDetailExample none none).2.1⟩
  exact (hnFetch_spec [1, 2, 3] hnDetailExample (some 1) none).2.2
    ([1, 2, 3] ++ List.replicate 200 9) (by decide)

/-- C9.  `importData` is atomic in the sense of the claim: whenever it
reports `false` the stored state is unchanged, and whenever it
reports `true` the parse succeeded on an object and each part the
imported JSON carries (config, feeds) has been applied wholesale,
missing parts leaving the old value; there is no outcome applying a
part and still reporting failure, nor one reporting success with a
carried part unapplied. -/
theorem importData_atomic {Cfg It : Type}
    (parseJson : String → Option (ImportJson Cfg It)) (data : String)
    (format : PortFormat) (σ : StorageState Cfg It) :
    ((importData parseJson data format σ).1 = false →
      (importData parseJson data format σ).2 = σ)
    ∧ ((importData parseJson data format σ).1 = true →
      ∃ c f, format = .json ∧ parseJson data = some (.jobj c f)
        ∧ (importData parseJson data format σ).2.config = c.getD σ.config
        ∧ (importData parseJson data format σ).2.feeds = f.getD σ.feeds) := by
  cases format with
  | csv => simp [importData]
  | json =>
    rcases hp : parseJson data with _ | j
    · simp [importData, hp]
    · cases j with
      | jnull => simp [importData, hp]
      | jobj c f =>
        constructor
        · intro h
          simp [importData, hp] at h
        · intro _
          refine ⟨c, f, rfl, rfl, ?_, ?_⟩
          · cases c <;> cases f <;> simp [importData, hp]
          · cases c <;> cases f <;> simp [importData, hp]

/-- Witness for C9: a failing parse leaves the concrete state
untouched (via the theorem), a `null` document likewise, and the
successful import applies config and feeds wholesale. -/
theorem importData_atomic_witness :
    (importData parseJsonExample "bad" .json ⟨"c0", ["f0"]⟩).1 = false
    ∧ (importData parseJsonExample "bad" .json ⟨"c0", ["f0"]⟩).2
        = ⟨"c0", ["f0"]⟩
    ∧ (importData parseJsonExample "null" .json ⟨"c0", ["f0"]⟩).2
        = ⟨"c0", ["f0"]⟩
    ∧ importData parseJsonExample "ok" .json ⟨"c0", ["f0"]⟩
        = (true, ⟨"cfg2", ["i1", "i2"]⟩)
    ∧ (importData parseJsonExample "x" .csv ⟨"c0", ["f0"]⟩).1 = false := by
  refine ⟨by decide,
    (importData_atomic parseJsonExample "bad" .json ⟨"c0", ["f0"]⟩).1
      (by decide),
    (importData_atomic parseJsonExample "null" .json ⟨"c0", ["f0"]⟩).1
      (by decide),
    by decide, by decide⟩

/-- C10, evaluated at the failing input.  A stored GitHub-trending
item has no `publishedAt` (the adapter always sets `undefined`), and
the CSV serialiser evaluates `feed.publishedAt.toISOString()` on it —
a `TypeError` that aborts the whole export instead of producing the
claimed header-plus-rows string; the crash hits whatever else the
list holds.  On items whose `publishedAt` is present the export
produces the fixed header and RFC-4180 quote-doubled fields, as the
third conjunct shows on a title with an embedded double quote. -/
theorem exportCsv_crashes_on_missing_publishedAt :
    exportCsv [ghTrendingItem] = .error ()
    ∧ exportCsv [csvOkItem, ghTrendingItem] = .error ()
    ∧ exportCsv [csvOkItem]
        = .ok (csvHeader ++ "\n"
            ++ "x-1,\"He said \"\"hi\"\"\",RSS,https://x.example,\"sum\",2025-01-01T00:00:00.000Z,\"a,b\",\"ai\"") := by
  refine ⟨rfl, rfl, ?_⟩
  rfl

end InfoTrend
